import Mathlib

/-
Verification of the django-dbbackup command-pipeline and storage engine
(dbcommands.py, utils.py, management/commands/dbbackup.py,
management/commands/backup_media.py, storage/s3_storage.py).

Strings are modelled as lists of characters.  The Python string
operations the code relies on - str.replace, shlex.split on
space-separated command templates, list repr for error formatting -
are embedded as executable functions below, so that every definition
can be evaluated by the kernel on concrete inputs.
-/

abbrev Str := List Char

/-- Python str.replace, with a fuel counter (any fuel at least the length
of the scanned string gives the same answer); scans left to right,
replacing non-overlapping occurrences of pat and continuing the scan
right after the replacement text, exactly as CPython does. -/
def pyReplaceFuel : Nat → Str → Str → Str → Str
  | _, [], _, _ => []
  | 0, s, _, _ => s
  | n + 1, c :: rest, pat, rep =>
    if pat ≠ [] ∧ pat.isPrefixOf (c :: rest) = true then
      rep ++ pyReplaceFuel n ((c :: rest).drop pat.length) pat rep
    else
      c :: pyReplaceFuel n rest pat rep

/-- Python str.replace (the fuel is instantiated with the string length,
which always suffices). -/
def pyReplace (s pat rep : Str) : Str := pyReplaceFuel s.length s pat rep

/-- Whether pat occurs as a contiguous substring of s (Python `pat in s`). -/
def occursIn : Str → Str → Bool
  | pat, [] => pat.isPrefixOf []
  | pat, c :: rest => pat.isPrefixOf (c :: rest) || occursIn pat rest

/-- Split a string at a separator character (used for engine lookup and
for shlex-splitting the space-separated command templates). -/
def splitOnChar (sep : Char) : Str → List Str
  | [] => [[]]
  | c :: rest =>
    match splitOnChar sep rest with
    | [] => if c = sep then [[], [c]] else [[c]]
    | w :: ws => if c = sep then [] :: w :: ws else (c :: w) :: ws

/-- shlex.split as it behaves on the quoting-free, space-separated
command templates built in dbcommands.py. -/
def shlexSplit (s : Str) : List Str :=
  (splitOnChar (Char.ofNat 32) s).filter (fun w => w ≠ [])

namespace StrLemmas

theorem pyReplaceFuel_nil (n : Nat) (pat rep : Str) :
    pyReplaceFuel n [] pat rep = [] := by
  cases n <;> rfl

theorem isPrefixOf_self_append (l s : Str) : l.isPrefixOf (l ++ s) = true := by
  induction l with
  | nil => simp [List.isPrefixOf]
  | cons c cs ih => simp [List.isPrefixOf, ih]

theorem drop_length_append (l s : Str) : (l ++ s).drop l.length = s := by
  induction l with
  | nil => rfl
  | cons c cs ih => simp [ih]

theorem isPrefixOf_decomp :
    ∀ (pat s : Str), pat.isPrefixOf s = true → pat ++ s.drop pat.length = s := by
  intro pat
  induction pat with
  | nil => intro s _; rfl
  | cons p pt ih =>
    intro s h
    cases s with
    | nil => simp [List.isPrefixOf] at h
    | cons c rest =>
      simp only [List.isPrefixOf, Bool.and_eq_true, beq_iff_eq] at h

      obtain ⟨rfl, h2⟩ := h
      simp [ih rest h2]

theorem pyReplaceFuel_inv :
    ∀ (n m : Nat) (s pat rep : Str), s.length ≤ n → s.length ≤ m →
      pyReplaceFuel n s pat rep = pyReplaceFuel m s pat rep := by
  intro n
  induction n with
  | zero =>
    intro m s pat rep hn _
    have hs : s = [] := List.length_eq_zero.mp (Nat.le_zero.mp hn)
    subst hs
    rw [pyReplaceFuel_nil, pyReplaceFuel_nil]
  | succ n ih =>
    intro m s pat rep hn hm
    cases s with
    | nil => rw [pyReplaceFuel_nil, pyReplaceFuel_nil]
    | cons c rest =>
      cases m with
      | zero => simp at hm
      | succ m =>
        show (if pat ≠ [] ∧ pat.isPrefixOf (c :: rest) = true then
                rep ++ pyReplaceFuel n ((c :: rest).drop pat.length) pat rep
              else c :: pyReplaceFuel n rest pat rep) =
             (if pat ≠ [] ∧ pat.isPrefixOf (c :: rest) = true then
                rep ++ pyReplaceFuel m ((c :: rest).drop pat.length) pat rep
              else c :: pyReplaceFuel m rest pat rep)
        by_cases hc : pat ≠ [] ∧ pat.isPrefixOf (c :: rest) = true
        · rw [if_pos hc, if_pos hc]
          have hpl : 1 ≤ pat.length := by
            cases pat with
            | nil => exact absurd rfl hc.1
            | cons _ _ => simp
          have hd : ((c :: rest).drop pat.length).length ≤ rest.length := by
            simp only [List.length_drop, List.length_cons]
            omega
          have h1 : ((c :: rest).drop pat.length).length ≤ n := by
            have := Nat.succ_le_succ_iff.mp hn
            omega
          have h2 : ((c :: rest).drop pat.length).length ≤ m := by
            have := Nat.succ_le_succ_iff.mp hm
            omega
          rw [ih m _ pat rep h1 h2]
        · rw [if_neg hc, if_neg hc]
          have h1 : rest.length ≤ n := Nat.succ_le_succ_iff.mp hn
          have h2 : rest.length ≤ m := Nat.succ_le_succ_iff.mp hm
          rw [ih m rest pat rep h1 h2]

theorem pyReplace_nil (pat rep : Str) : pyReplace [] pat rep = [] := rfl

/-- Unfolding lemma: a match at the head of the string. -/
theorem pyReplace_hit (s pat rep : Str) (h1 : pat ≠ [])
    (h2 : pat.isPrefixOf s = true) :
    pyReplace s pat rep = rep ++ pyReplace (s.drop pat.length) pat rep := by
  cases s with
  | nil =>
    cases pat with
    | nil => exact absurd rfl h1
    | cons p pt => simp [List.isPrefixOf] at h2
  | cons c rest =>
    show pyReplaceFuel (rest.length + 1) (c :: rest) pat rep = _
    have : pyReplaceFuel (rest.length + 1) (c :: rest) pat rep =
        if pat ≠ [] ∧ pat.isPrefixOf (c :: rest) = true then
          rep ++ pyReplaceFuel rest.length ((c :: rest).drop pat.length) pat rep
        else c :: pyReplaceFuel rest.length rest pat rep := rfl
    rw [this, if_pos ⟨h1, h2⟩]
    congr 1
    have hpl : 1 ≤ pat.length := by
      cases pat with
      | nil => exact absurd rfl h1
      | cons _ _ => simp
    apply pyReplaceFuel_inv
    · simp only [List.length_drop, List.length_cons]; omega
    · exact Nat.le_refl _

/-- Unfolding lemma: no match at the head of the string. -/
theorem pyReplace_step (c : Char) (rest pat rep : Str)
    (h : pat.isPrefixOf (c :: rest) = false) :
    pyReplace (c :: rest) pat rep = c :: pyReplace rest pat rep := by
  show pyReplaceFuel (rest.length + 1) (c :: rest) pat rep = _
  have heq : pyReplaceFuel (rest.length + 1) (c :: rest) pat rep =
      if pat ≠ [] ∧ pat.isPrefixOf (c :: rest) = true then
        rep ++ pyReplaceFuel rest.length ((c :: rest).drop pat.length) pat rep
      else c :: pyReplaceFuel rest.length rest pat rep := rfl
  rw [heq, if_neg (fun hc => by simp [hc.2] at h)]
  rfl

/-- Replacing a pattern at the very front of the string. -/
theorem pyReplace_front (s pat rep : Str) (h : pat ≠ []) :
    pyReplace (pat ++ s) pat rep = rep ++ pyReplace s pat rep := by
  rw [pyReplace_hit (pat ++ s) pat rep h (isPrefixOf_self_append pat s),
    drop_length_append]

/-- If the pattern does not occur in s, replace is the identity. -/
theorem pyReplace_no_occ :
    ∀ (s pat rep : Str), occursIn pat s = false → pyReplace s pat rep = s := by
  intro s
  induction s with
  | nil => intro pat rep _; rfl
  | cons c rest ih =>
    intro pat rep h
    simp only [occursIn, Bool.or_eq_false_iff] at h
    rw [pyReplace_step c rest pat rep h.1, ih pat rep h.2]

/-- Scanning past a block of characters that cannot start a match
because the pattern head does not occur among them. -/
theorem pyReplace_skip :
    ∀ (x s pat rep : Str) (p : Char) (pt : Str), pat = p :: pt → p ∉ x →
      pyReplace (x ++ s) pat rep = x ++ pyReplace s pat rep := by
  intro x
  induction x with
  | nil => intro s pat rep p pt _ _; rfl
  | cons c x' ih =>
    intro s pat rep p pt hpat hp
    have hne : p ≠ c := fun h => hp (h ▸ List.mem_cons_self c x')
    have hpf : pat.isPrefixOf (c :: (x' ++ s)) = false := by
      subst hpat
      simp [List.isPrefixOf, hne]
    rw [List.cons_append, pyReplace_step c (x' ++ s) pat rep hpf,
      ih s pat rep p pt hpat (fun h => hp (List.mem_cons_of_mem c h))]
    rfl

theorem occursIn_nil_of_ne (pat : Str) (h : pat ≠ []) : occursIn pat [] = false := by
  cases pat with
  | nil => exact absurd rfl h
  | cons p pt => rfl

/-- Occurrences in an appended string, when the pattern head cannot
appear in the left part. -/
theorem occursIn_append_skip :
    ∀ (x y pat : Str) (p : Char) (pt : Str), pat = p :: pt → p ∉ x →
      occursIn pat (x ++ y) = occursIn pat y := by
  intro x
  induction x with
  | nil => intro y pat p pt _ _; rfl
  | cons c x' ih =>
    intro y pat p pt hpat hp
    have hne : p ≠ c := fun h => hp (h ▸ List.mem_cons_self c x')
    have hpf : pat.isPrefixOf (c :: (x' ++ y)) = false := by
      subst hpat
      simp [List.isPrefixOf, hne]
    show (pat.isPrefixOf (c :: (x' ++ y)) || occursIn pat (x' ++ y)) = occursIn pat y
    rw [hpf, ih y pat p pt hpat (fun h => hp (List.mem_cons_of_mem c h))]
    simp

/-- A pattern whose head avoids every character of s does not occur in s. -/
theorem occursIn_eq_false_of_head_notMem (s pat : Str) (p : Char) (pt : Str)
    (hpat : pat = p :: pt) (hp : p ∉ s) : occursIn pat s = false := by
  have h := occursIn_append_skip s [] pat p pt hpat hp
  rw [List.append_nil] at h
  rw [h]
  exact occursIn_nil_of_ne pat (by simp [hpat])

/-- An isPrefixOf test only inspects as many characters as the pattern has. -/
theorem isPrefixOf_append_of_le :
    ∀ (pat w z : Str), pat.length ≤ w.length →
      pat.isPrefixOf (w ++ z) = pat.isPrefixOf w := by
  intro pat
  induction pat with
  | nil => intro w z _; simp [List.isPrefixOf]
  | cons p pt ih =>
    intro w z hlen
    cases w with
    | nil => simp at hlen
    | cons c w' =>
      show (p == c && pt.isPrefixOf (w' ++ z)) = (p == c && pt.isPrefixOf w')
      rw [ih w' z (Nat.succ_le_succ_iff.mp hlen)]

/-- Replacing a single occurrence of pat sitting after a block x in which
no match can start: every start position inside x fails the prefix test
even with the pattern itself appended. -/
theorem pyReplace_chunk :
    ∀ (x z pat rep : Str), pat ≠ [] →
      (∀ i, i < x.length → pat.isPrefixOf (x.drop i ++ pat) = false) →
      pyReplace (x ++ (pat ++ z)) pat rep = x ++ rep ++ pyReplace z pat rep := by
  intro x
  induction x with
  | nil =>
    intro z pat rep hp _
    simp only [List.nil_append]
    rw [pyReplace_front z pat rep hp]
  | cons c x' ih =>
    intro z pat rep hp h
    have h0 : pat.isPrefixOf ((c :: x') ++ pat) = false := by
      have := h 0 (by simp)
      simpa using this
    have hpf : pat.isPrefixOf ((c :: x') ++ (pat ++ z)) = false := by
      rw [← List.append_assoc]
      rw [isPrefixOf_append_of_le pat ((c :: x') ++ pat) z (by simp; omega)]
      exact h0
    rw [List.cons_append, pyReplace_step c (x' ++ (pat ++ z)) pat rep (by simpa using hpf)]
    rw [ih z pat rep hp (fun i hi => by have := h (i + 1) (by simpa using Nat.succ_lt_succ hi); simpa using this)]
    simp

/-- A mismatch inside the zip window refutes the prefix test regardless of
what is appended afterwards. -/
theorem isPrefixOf_eq_false_of_zip_mismatch :
    ∀ (w pat y : Str), (w.zip pat).any (fun q => !(q.1 == q.2)) = true →
      pat.isPrefixOf (w ++ y) = false := by
  intro w
  induction w with
  | nil => intro pat y h; simp at h
  | cons c w' ih =>
    intro pat y h
    cases pat with
    | nil => simp at h
    | cons p pt =>
      simp only [List.zip_cons_cons, List.any_cons, Bool.or_eq_true] at h
      show (p == c && pt.isPrefixOf (w' ++ y)) = false
      rcases h with h | h
      · have : ¬(p = c) := by
          intro hpc
          simp [hpc] at h
        simp [this]
      · rw [ih pt y h]
        simp

/-- No occurrence in an append: every start position within x is refuted by
a mismatch inside the concrete window, and the pattern does not occur in y. -/
theorem occursIn_append_of_mismatch :
    ∀ (x y pat : Str),
      (∀ i, i < x.length → ((x.drop i).zip pat).any (fun q => !(q.1 == q.2)) = true) →
      occursIn pat y = false → occursIn pat (x ++ y) = false := by
  intro x
  induction x with
  | nil => intro y pat _ hy; simpa using hy
  | cons c x' ih =>
    intro y pat h hy
    show (pat.isPrefixOf (c :: x' ++ y) || occursIn pat (x' ++ y)) = false
    have h0 := isPrefixOf_eq_false_of_zip_mismatch (c :: x') pat y (by simpa using h 0 (by simp))
    rw [List.cons_append] at h0 ⊢
    rw [h0, ih y pat (fun i hi => by simpa using h (i + 1) (by simpa using Nat.succ_lt_succ hi)) hy]
    rfl

/-- A doubled character does not occur in an append when it occurs in
neither part and does not arise at the boundary. -/
theorem occursIn_pair_append :
    ∀ (x y : Str) (a : Char), occursIn [a, a] x = false → occursIn [a, a] y = false →
      (x.getLast? = some a → y.head? ≠ some a) →
      occursIn [a, a] (x ++ y) = false := by
  intro x
  induction x with
  | nil => intro y a _ hy _; simpa using hy
  | cons c x' ih =>
    intro y a hx hy hb
    simp only [occursIn, Bool.or_eq_false_iff] at hx
    show (List.isPrefixOf [a, a] (c :: (x' ++ y)) || occursIn [a, a] (x' ++ y)) = false
    cases x' with
    | nil =>
      have h1 : List.isPrefixOf [a, a] (c :: ([] ++ y)) = false := by
        by_cases hca : a = c
        · subst hca
          have hb2 := hb (by simp)
          cases y with
          | nil => simp [List.isPrefixOf]
          | cons d y' =>
            have : a ≠ d := fun h => hb2 (by simp [h])
            simp [List.isPrefixOf, this]
        · simp [List.isPrefixOf, hca]
      rw [h1]
      simpa using hy
    | cons d x'' =>
      have h1 : List.isPrefixOf [a, a] (c :: ((d :: x'') ++ y)) = false := by
        have := hx.1
        simp only [List.isPrefixOf, Bool.and_eq_true, Bool.and_true] at this ⊢
        simpa using this
      rw [h1]
      have h2 := ih y a hx.2 hy (by
        intro hl
        exact hb (by rw [List.getLast?_cons_cons]; exact hl))
      simpa using h2

/-- Replacing a doubled character by a single one across a clean block D:
the first match is right after D, and scanning resumes past it. -/
theorem pyReplace_pair :
    ∀ (D z : Str) (a : Char), occursIn [a, a] D = false → D.getLast? ≠ some a →
      pyReplace (D ++ (a :: a :: z)) [a, a] [a] = D ++ a :: pyReplace z [a, a] [a] := by
  intro D
  induction D with
  | nil =>
    intro z a _ _
    simpa using pyReplace_front z [a, a] [a] (by simp)
  | cons c D' ih =>
    intro z a hx hlast
    simp only [occursIn, Bool.or_eq_false_iff] at hx
    cases D' with
    | nil =>
      have hca : a ≠ c := by
        intro h
        exact hlast (by simp [h])
      have h1 : List.isPrefixOf [a, a] (c :: ([] ++ (a :: a :: z))) = false := by
        simp [List.isPrefixOf, hca]
      rw [List.cons_append, pyReplace_step c _ [a, a] [a] (by simpa using h1)]
      have := pyReplace_front z [a, a] [a] (by simp)
      simp only [List.nil_append]
      rw [show ([a, a] : Str) ++ z = a :: a :: z from rfl] at this
      rw [this]
      rfl
    | cons d D'' =>
      have h1 : List.isPrefixOf [a, a] (c :: ((d :: D'') ++ (a :: a :: z))) = false := by
        have := hx.1
        simp only [List.isPrefixOf, Bool.and_eq_true, Bool.and_true] at this ⊢
        simpa using this
      rw [List.cons_append, pyReplace_step c _ [a, a] [a] (by simpa using h1)]
      rw [ih z a hx.2 (by
        intro hl
        exact hlast (by rw [List.getLast?_cons_cons]; exact hl))]
      rfl

/-- str.replace with an empty pattern is modelled as the identity (the
patterns used by the code are always nonempty). -/
theorem pyReplace_empty_pat (s rep : Str) : pyReplace s [] rep = s := by
  induction s with
  | nil => rfl
  | cons c rest ih =>
    have heq : pyReplace (c :: rest) ([] : Str) rep =
        if ([] : Str) ≠ [] ∧ List.isPrefixOf ([] : Str) (c :: rest) = true then
          rep ++ pyReplaceFuel rest.length ((c :: rest).drop (List.length ([] : Str))) [] rep
        else c :: pyReplaceFuel rest.length rest [] rep := rfl
    rw [heq, if_neg (fun hc => hc.1 rfl)]
    exact congrArg (c :: ·) ih

/-- If a nonempty block Q, disjoint from the replacement mask, is a prefix
of the replaced string, it was already a prefix of the original string. -/
theorem isPrefixOf_pyReplace_transfer :
    ∀ (n : Nat) (s Q pat mask : Str), s.length ≤ n → Q ≠ [] →
      (∀ c ∈ Q, c ∉ mask) → mask ≠ [] →
      Q.isPrefixOf (pyReplace s pat mask) = true → Q.isPrefixOf s = true := by
  intro n
  induction n with
  | zero =>
    intro s Q pat mask hn hQ _ _ h
    have hs : s = [] := List.length_eq_zero.mp (Nat.le_zero.mp hn)
    subst hs
    rw [pyReplace_nil] at h
    cases Q with
    | nil => exact absurd rfl hQ
    | cons q Q' => simp [List.isPrefixOf] at h
  | succ n ih =>
    intro s Q pat mask hn hQ hdis hm h
    cases s with
    | nil =>
      rw [pyReplace_nil] at h
      cases Q with
      | nil => exact absurd rfl hQ
      | cons q Q' => simp [List.isPrefixOf] at h
    | cons c rest =>
      by_cases hp : pat = []
      case pos =>
        subst hp
        rw [pyReplace_empty_pat] at h
        exact h
      case neg =>
      by_cases hpf : pat.isPrefixOf (c :: rest) = true
      · rw [pyReplace_hit (c :: rest) pat mask hp hpf] at h
        cases Q with
        | nil => exact absurd rfl hQ
        | cons q Q' =>
          cases mask with
          | nil => exact absurd rfl hm
          | cons b mt =>
            simp only [List.cons_append, List.isPrefixOf, Bool.and_eq_true, beq_iff_eq] at h
            exact absurd (h.1 ▸ List.mem_cons_self b mt) (hdis q (List.mem_cons_self q Q'))
      · have hstep : pat.isPrefixOf (c :: rest) = false := Bool.eq_false_iff.mpr hpf
        rw [pyReplace_step c rest pat mask hstep] at h
        cases Q with
        | nil => exact absurd rfl hQ
        | cons q Q' =>
          simp only [List.isPrefixOf, Bool.and_eq_true, beq_iff_eq] at h ⊢
          refine ⟨h.1, ?_⟩
          cases Q' with
          | nil => simp [List.isPrefixOf]
          | cons q2 Q'' =>
            exact ih rest (q2 :: Q'') pat mask (Nat.succ_le_succ_iff.mp hn) (by simp)
              (fun c2 hc2 => hdis c2 (List.mem_cons_of_mem q hc2)) hm h.2

/-- Replacing every occurrence of a nonempty pattern with a mask disjoint
from it removes the pattern entirely: the redacted output never contains
the pattern again. -/
theorem occursIn_pyReplace_self :
    ∀ (n : Nat) (s pat mask : Str), s.length ≤ n → pat ≠ [] →
      (∀ c ∈ pat, c ∉ mask) → mask ≠ [] →
      occursIn pat (pyReplace s pat mask) = false := by
  intro n
  induction n with
  | zero =>
    intro s pat mask hn hp _ _
    have hs : s = [] := List.length_eq_zero.mp (Nat.le_zero.mp hn)
    subst hs
    rw [pyReplace_nil]
    exact occursIn_nil_of_ne pat hp
  | succ n ih =>
    intro s pat mask hn hp hdis hm
    cases s with
    | nil =>
      rw [pyReplace_nil]
      exact occursIn_nil_of_ne pat hp
    | cons c rest =>
      by_cases hpf : pat.isPrefixOf (c :: rest) = true
      · rw [pyReplace_hit (c :: rest) pat mask hp hpf]
        cases pat with
        | nil => exact absurd rfl hp
        | cons p pt =>
          rw [occursIn_append_skip mask _ (p :: pt) p pt rfl
            (hdis p (List.mem_cons_self p pt))]
          have hlen : ((c :: rest).drop (p :: pt).length).length ≤ n := by
            simp only [List.length_drop, List.length_cons]
            have := Nat.succ_le_succ_iff.mp hn
            omega
          exact ih _ (p :: pt) mask hlen hp hdis hm
      · have hstep : pat.isPrefixOf (c :: rest) = false := Bool.eq_false_iff.mpr hpf
        rw [pyReplace_step c rest pat mask hstep]
        cases pat with
        | nil => exact absurd rfl hp
        | cons p pt =>
          show (List.isPrefixOf (p :: pt) (c :: pyReplace rest (p :: pt) mask) ||
            occursIn (p :: pt) (pyReplace rest (p :: pt) mask)) = false
          have h2 : occursIn (p :: pt) (pyReplace rest (p :: pt) mask) = false :=
            ih rest (p :: pt) mask (Nat.succ_le_succ_iff.mp hn) hp hdis hm
          have h1 : List.isPrefixOf (p :: pt) (c :: pyReplace rest (p :: pt) mask) = false := by
            by_cases hpc : p = c
            · subst hpc
              cases pt with
              | nil => simp [List.isPrefixOf] at hstep
              | cons p2 pt' =>
                show (p == p && List.isPrefixOf (p2 :: pt')
                  (pyReplace rest (p :: p2 :: pt') mask)) = false
                have hstep2 : List.isPrefixOf (p2 :: pt') rest = false := by
                  have e : List.isPrefixOf (p :: p2 :: pt') (p :: rest) =
                      (p == p && List.isPrefixOf (p2 :: pt') rest) := rfl
                  rw [e] at hstep
                  simpa using hstep
                have hq : List.isPrefixOf (p2 :: pt')
                    (pyReplace rest (p :: p2 :: pt') mask) = false := by
                  by_cases hq0 : List.isPrefixOf (p2 :: pt')
                      (pyReplace rest (p :: p2 :: pt') mask) = true
                  · have htr := isPrefixOf_pyReplace_transfer rest.length rest (p2 :: pt')
                      (p :: p2 :: pt') mask (Nat.le_refl _) (by simp)
                      (fun c2 hc2 => hdis c2 (List.mem_cons_of_mem p hc2)) hm hq0
                    rw [htr] at hstep2
                    exact absurd hstep2 (by simp)
                  · exact Bool.eq_false_iff.mpr hq0
                rw [hq]
                simp
            · simp [List.isPrefixOf, hpc]
          rw [h1, h2]
          rfl

/-- Replacing the pattern by itself alone. -/
theorem pyReplace_self (pat rep : Str) (h : pat ≠ []) : pyReplace pat pat rep = rep := by
  have h2 := pyReplace_front [] pat rep h
  rw [List.append_nil] at h2
  rw [h2, pyReplace_nil, List.append_nil]

theorem isSuffixOf_append_self (a x : Str) : List.isSuffixOf a (x ++ a) = true := by
  unfold List.isSuffixOf
  rw [List.reverse_append]
  exact isPrefixOf_self_append a.reverse x.reverse

theorem isPrefixOf_single_eq_false (a : Char) (w : Str) (h : w.head? ≠ some a) :
    List.isPrefixOf [a] w = false := by
  cases w with
  | nil => rfl
  | cons c w' =>
    have : a ≠ c := fun he => h (by simp [he])
    simp [List.isPrefixOf, this]

end StrLemmas

/-! ## Characters and placeholder tokens -/

def sp : Char := Char.ofNat 32
def dash : Char := Char.ofNat 45
def dotChar : Char := Char.ofNat 46
def slashChar : Char := Char.ofNat 47
def sqc : Char := Char.ofNat 39
def star : Char := Char.ofNat 42
def lbrace : Char := Char.ofNat 123
def lbrackC : Char := Char.ofNat 91
def rbrackC : Char := Char.ofNat 93
def commaC : Char := Char.ofNat 44

/-- The six placeholder tokens recognised by DBCommands.translate_command. -/
def patAdminuser : Str := "\x7badminuser\x7d".data
def patUsername : Str := "\x7busername\x7d".data
def patPassword : Str := "\x7bpassword\x7d".data
def patDatabasename : Str := "\x7bdatabasename\x7d".data
def patHost : Str := "\x7bhost\x7d".data
def patPort : Str := "\x7bport\x7d".data

/-- Placeholders of the filename template (dbcommands.py FILENAME_TEMPLATE). -/
def patServername : Str := "\x7bservername\x7d".data
def patDatetime : Str := "\x7bdatetime\x7d".data
def patTimestamp : Str := "\x7btimestamp\x7d".data
def patWildcard : Str := "\x7bwildcard\x7d".data
def patExtension : Str := "\x7bextension\x7d".data

/-- The READ_FILE / WRITE_FILE pseudo-command markers of dbcommands.py. -/
def READ_FILE : Str := "<READ_FILE>".data
def WRITE_FILE : Str := "<WRITE_FILE>".data

/-! ## DatabaseConfig and credential substitution (dbcommands.py) -/

/-- A Django database settings dictionary as read by dbcommands.py:
ENGINE, NAME, USER, optional ADMINUSER, PASSWORD, HOST, PORT (HOST and
PORT are present but may be empty, as in Django defaults; PORT is the
str() of the configured value). -/
structure DatabaseConfig where
  engine : Str
  name : Str
  user : Str
  adminuser : Option Str
  password : Str
  host : Str
  port : Str
deriving DecidableEq

/-- database.get(ADMINUSER, database[USER]). -/
def adminuserOf (db : DatabaseConfig) : Str := db.adminuser.getD db.user

/-- One argument of DBCommands.translate_command: the six str.replace
calls applied in the order of the source. -/
def translateArg (db : DatabaseConfig) (s : Str) : Str :=
  pyReplace (pyReplace (pyReplace (pyReplace (pyReplace (pyReplace s
    patAdminuser (adminuserOf db))
    patUsername db.user)
    patPassword db.password)
    patDatabasename db.name)
    patHost db.host)
    patPort db.port

/-- DBCommands.translate_command: replaces every token in every argument. -/
def translate_command (db : DatabaseConfig) (cmd : List Str) : List Str :=
  cmd.map (translateArg db)

/-! ## Engine command templates (dbcommands.py) -/

/-- MySQLSettings.get_backup_commands, without a
DBBACKUP_MYSQL_BACKUP_COMMANDS override: the command string is built up
conditionally and then shlex.split. -/
def mysql_backup_command_string (db : DatabaseConfig) : Str :=
  (("mysqldump --user=\x7badminuser\x7d --password=\x7bpassword\x7d".data ++
      (if db.host ≠ [] then " --host=\x7bhost\x7d".data else [])) ++
    (if db.port ≠ [] then " --port=\x7bport\x7d".data else [])) ++
  " \x7bdatabasename\x7d >".data

def mysql_backup_commands (db : DatabaseConfig) : List (List Str) :=
  [shlexSplit (mysql_backup_command_string db)]

/-- The backup argument vector after credential substitution (the
resolution run_commands performs before dispatch). -/
def mysql_backup_resolved (db : DatabaseConfig) : List Str :=
  translate_command db (shlexSplit (mysql_backup_command_string db))

/-- PostgreSQLSettings.dropdb_command. -/
def pg_dropdb_command (db : DatabaseConfig) : Str :=
  (("dropdb --username=\x7badminuser\x7d".data ++
      (if db.host ≠ [] then " --host=\x7bhost\x7d".data else [])) ++
    (if db.port ≠ [] then " --port=\x7bport\x7d".data else [])) ++
  " \x7bdatabasename\x7d".data

/-- PostgreSQLSettings.createdb_command. -/
def pg_createdb_command (db : DatabaseConfig) : Str :=
  (("createdb --username=\x7badminuser\x7d --owner=\x7busername\x7d".data ++
      (if db.host ≠ [] then " --host=\x7bhost\x7d".data else [])) ++
    (if db.port ≠ [] then " --port=\x7bport\x7d".data else [])) ++
  " \x7bdatabasename\x7d".data

/-- PostgreSQLSettings.import_command. -/
def pg_import_command (db : DatabaseConfig) : Str :=
  (("psql --username=\x7badminuser\x7d".data ++
      (if db.host ≠ [] then " --host=\x7bhost\x7d".data else [])) ++
    (if db.port ≠ [] then " --port=\x7bport\x7d".data else [])) ++
  " --single-transaction \x7bdatabasename\x7d <".data

/-- PostgreSQLSettings.get_restore_commands, without an override:
drop database, create database, import, in that order. -/
def pg_restore_commands (db : DatabaseConfig) : List (List Str) :=
  [shlexSplit (pg_dropdb_command db),
   shlexSplit (pg_createdb_command db),
   shlexSplit (pg_import_command db)]

/-! ## Engine selection (DBCommands.__init__ / _get_settings) -/

inductive EngineSettingsKind
  | mysql
  | postgresql
  | sqlite
deriving DecidableEq

/-- self.database[ENGINE].split『.』[-1]. -/
def engineOf (engineStr : Str) : Str := (splitOnChar dotChar engineStr).getLastD []

/-- DBCommands._get_settings: the if/elif chain has no else branch, so an
unrecognised engine yields None. -/
def _get_settings (engine : Str) : Option EngineSettingsKind :=
  if engine = "mysql".data then some EngineSettingsKind.mysql
  else if engine = "postgresql_psycopg2".data ∨ engine = "postgis".data then
    some EngineSettingsKind.postgresql
  else if engine = "sqlite3".data then some EngineSettingsKind.sqlite
  else none

structure DBCommandsState where
  engine : Str
  settings : Option EngineSettingsKind
deriving DecidableEq

/-- DBCommands.__init__: the body contains no raise statement; the Except
codomain makes the property that construction raises statable, and the
constructor always returns ok. -/
def DBCommands_init (db : DatabaseConfig) : Except Str DBCommandsState :=
  Except.ok ⟨engineOf db.engine, _get_settings (engineOf db.engine)⟩

def initStateSettings (r : Except Str DBCommandsState) :
    Option (Option EngineSettingsKind) :=
  match r with
  | Except.ok st => some st.settings
  | Except.error _ => none

/-! ## Redaction and the process pipeline runner (dbcommands.py) -/

/-- The literal mask used by DBCommands._clean_passwd. -/
def MASK : Str := [star, star, star, star, star, star]

/-- DBCommands._clean_passwd: replace the password with the mask. -/
def _clean_passwd (db : DatabaseConfig) (s : Str) : Str :=
  pyReplace s db.password MASK

def ltTok : Str := "<".data
def gtTok : Str := ">".data

/-- filter(lambda arg: arg not in [<, >], command). -/
def stripMarkers (cmd : List Str) : List Str :=
  cmd.filter (fun a => !(a == ltTok) && !(a == gtTok))

/-- Python  .join(command) with a space. -/
def joinSpace (l : List Str) : Str := List.intercalate [sp] l

/-- Python "%s" % command for a list of strings: the repr with single
quotes (tokens here never contain quotes, so no escaping arises). -/
def pyReprList (l : List Str) : Str :=
  lbrackC :: (List.intercalate [commaC, sp] (l.map (fun s => sqc :: (s ++ [sqc])))) ++ [rbrackC]

structure RunOutcome where
  printed : Str
  result : Except Str Unit

/-- DBCommands.run_command: strip the direction markers, print the
redacted command line, spawn and wait; a non-zero exit status raises
CommandError with the unredacted list repr of the command.  exitOf is
the exit status of the spawned process. -/
def run_command (db : DatabaseConfig) (exitOf : List Str → Int) (cmd : List Str) :
    RunOutcome :=
  if exitOf (stripMarkers cmd) ≠ 0 then
    ⟨_clean_passwd db ("  Running: ".data ++ joinSpace (stripMarkers cmd)),
     Except.error ("Error running: ".data ++ pyReprList (stripMarkers cmd))⟩
  else
    ⟨_clean_passwd db ("  Running: ".data ++ joinSpace (stripMarkers cmd)),
     Except.ok ()⟩

structure RunTrace where
  executed : List (List Str)
  printed : List Str
  err : Option Str

/-- One iteration of the run_commands loop on command c: READ_FILE and
WRITE_FILE dispatch to direct file I/O (one printed line, no
ProcessError), anything else spawns via run_command; on a CommandError
the continuation trace t is discarded (those commands never run). -/
def run_one (db : DatabaseConfig) (exitOf : List Str → Int) (c : List Str)
    (t : RunTrace) : RunTrace :=
  if (translate_command db c).head? = some READ_FILE then
    ⟨translate_command db c :: t.executed,
     ("  Reading: ".data ++ (translate_command db c).getD 1 []) :: t.printed, t.err⟩
  else if (translate_command db c).head? = some WRITE_FILE then
    ⟨translate_command db c :: t.executed,
     ("  Writing: ".data ++ (translate_command db c).getD 1 []) :: t.printed, t.err⟩
  else
    match (run_command db exitOf (translate_command db c)).result with
    | Except.ok _ =>
      ⟨translate_command db c :: t.executed,
       (run_command db exitOf (translate_command db c)).printed :: t.printed, t.err⟩
    | Except.error e =>
      ⟨[translate_command db c],
       [(run_command db exitOf (translate_command db c)).printed], some e⟩

/-- DBCommands.run_commands: translate each command in turn, dispatch
READ_FILE / WRITE_FILE to direct file I/O and everything else to
run_command; a raised CommandError propagates, aborting the remaining
commands.  The trace records the dispatched commands in order, the
printed lines, and the first error. -/
def run_commands (db : DatabaseConfig) (exitOf : List Str → Int) :
    List (List Str) → RunTrace
  | [] => ⟨[], [], none⟩
  | c :: rest => run_one db exitOf c (run_commands db exitOf rest)

def isVirtual (cmd : List Str) : Bool :=
  cmd.head? == some READ_FILE || cmd.head? == some WRITE_FILE

/-- Whether dispatching this (untranslated) command spawns a process that
exits non-zero. -/
def failsAt (db : DatabaseConfig) (exitOf : List Str → Int) (c : List Str) : Bool :=
  !isVirtual (translate_command db c) &&
    decide (exitOf (stripMarkers (translate_command db c)) ≠ 0)

def errMsgOf (o : RunOutcome) : Str :=
  match o.result with
  | Except.error m => m
  | Except.ok _ => []

/-! ## Artifact transform pipeline (dbbackup.py, utils.py) -/

/-- A backup artifact in flight; only its name matters to the claims
about the pipeline (contents are produced by external tools). -/
structure Artifact where
  name : Str
deriving DecidableEq

/-- Command.compress_file: gzip into a new spooled temporary file whose
name is the input name with .gz appended. -/
def compress_file (f : Artifact) : Artifact := ⟨f.name ++ ".gz".data⟩

/-- utils.encrypt_file: shells out to gpg; a falsy result object raises
(Encryption failed) before any further step; otherwise the returned
spooled file is named input name + .gpg.  encOk is the truthiness of the
gpg result object, status its status string. -/
def encrypt_file (encOk : Bool) (status : Str) (f : Artifact) : Except Str Artifact :=
  if encOk = false then
    Except.error ("Encryption failed; status: ".data ++ status)
  else
    Except.ok ⟨f.name ++ ".gpg".data⟩

/-- Command.save_new_backup (dbbackup.py), after the dump produced the
raw artifact: compression then encryption when requested, then
storage.write_file.  The second component records the names passed to
storage.write_file; an exception from encrypt_file propagates before any
write, leaving the record empty. -/
def save_new_backup (compress encrypt encOk : Bool) (status : Str) (raw : Artifact) :
    Except Str Artifact × List Str :=
  if encrypt then
    match encrypt_file encOk status (if compress then compress_file raw else raw) with
    | Except.error e => (Except.error e, [])
    | Except.ok f2 => (Except.ok f2, [f2.name])
  else
    (Except.ok (if compress then compress_file raw else raw),
     [(if compress then compress_file raw else raw).name])

/-! ## Backup filename generation (DBCommands.filename) -/

/-- The default DBBACKUP_FILENAME_TEMPLATE of dbcommands.py. -/
def FILENAME_TEMPLATE : Str :=
  "\x7bdatabasename\x7d-\x7bservername\x7d-\x7bdatetime\x7d.\x7bextension\x7d".data

/-- DBCommands.filename with the default string template: NAME has / 
replaced by _, each params key is substituted into the template
(insertion order; the params dict order is unspecified in Python 2, and
the theorems below only cover inputs on which the order is immaterial;
the timestamp and wildcard keys have no placeholder in the default
template), and finally doubled hyphens are replaced once.  dtStr is the
wildcard or the strftime-rendered timestamp; tsRepr and wcRepr are the
unicode renderings of the raw timestamp and wildcard values. -/
def dbCommands_filename (databasename servername tsRepr extension wcRepr dtStr : Str) :
    Str :=
  pyReplace
    (pyReplace (pyReplace (pyReplace (pyReplace (pyReplace (pyReplace FILENAME_TEMPLATE
      patDatabasename (pyReplace databasename [slashChar] "_".data))
      patServername servername)
      patTimestamp tsRepr)
      patExtension extension)
      patWildcard wcRepr)
      patDatetime dtStr)
    [dash, dash] [dash]

/-! ## Retention cleanup (dbbackup.py / backup_media.py) -/

structure BackupDate where
  year : Nat
  month : Nat
  day : Nat
  hour : Nat
  minute : Nat
  second : Nat
deriving DecidableEq

/-- An entry of get_backup_file_list: parsed backup date and filename,
listed in ascending date order. -/
abbrev BackupEntry := BackupDate × Str

/-- Python l[0:-k]. -/
def pySliceDropLast {α : Type} (k : Nat) (l : List α) : List α :=
  if k = 0 then [] else l.take (l.length - k)

/-- Command.cleanup_old_backups (backup_media.py lines 91-102; the
dbbackup.py variant applies the same slice and day-of-month test to
filenames with parsed dates): iterate file_list[0:-CLEANUP_KEEP] and
delete every entry whose day of month is not 1.  Returns the deleted
entries. -/
def cleanup_old_backups (keep : Nat) (fileList : List BackupEntry) : List BackupEntry :=
  (pySliceDropLast keep fileList).filter (fun e => e.1.day != 1)

/-- Modelled from the spec (section 4.6 Retention Policy Engine): the
candidates are every entry except the most recent keep entries; entries
whose timestamp falls on the first day of a month are excluded. -/
def selectForDeletion_spec (keep : Nat) (fileList : List BackupEntry) : List BackupEntry :=
  (fileList.take (fileList.length - keep)).filter (fun e => e.1.day != 1)

/-! ## S3 storage construction checks (s3_storage.py) -/

/-- getattr(settings, ..., None) truthiness: absent or empty is falsy. -/
def falsyOpt : Option Str → Bool
  | none => true
  | some s => s.isEmpty

def msgS3Bucket : Str :=
  "Filesystem storage requires DBBACKUP_S3_BUCKET to be defined in settings.".data
def msgS3AccessKey : Str :=
  "Filesystem storage requires DBBACKUP_S3_ACCESS_KEY to be defined in settings.".data
def msgS3SecretKey : Str :=
  "Filesystem storage requires DBBACKUP_S3_SECRET_KEY to be defined in settings.".data

/-- Storage._check_filesystem_errors: three sequential checks, each
raising immediately; the result is the message of the StorageError
raised, if any. -/
def _check_filesystem_errors (bucket accessKey secretKey : Option Str) : Option Str :=
  if falsyOpt bucket then some msgS3Bucket
  else if falsyOpt accessKey then some msgS3AccessKey
  else if falsyOpt secretKey then some msgS3SecretKey
  else none

/-! ## The multi-database handle loop (dbbackup.py Command.handle) -/

inductive BackupEvent
  | backup (name : Str)
  | cleanup (name : Str)
deriving DecidableEq

/-- Command.handle, batch branch (no --database flag): iterate the
configured database keys in order, running save_new_backup then
cleanup_old_backups for each; an exception from either aborts the loop.
step gives, per database name, whether the backup and the cleanup
succeed; the result records the operations started, in order, and the
database at which the run aborted (if any). -/
def handle_loop (step : Str → Bool × Bool) : List Str → List BackupEvent × Option Str
  | [] => ([], none)
  | d :: rest =>
    if (step d).1 = false then ([BackupEvent.backup d], some d)
    else if (step d).2 = false then
      ([BackupEvent.backup d, BackupEvent.cleanup d], some d)
    else
      let t := handle_loop step rest
      (BackupEvent.backup d :: BackupEvent.cleanup d :: t.1, t.2)

/-! ## Concrete fixtures used by the witnesses and counterexamples -/

def cfgMySQL : DatabaseConfig :=
  ⟨"django.db.backends.mysql".data, "shop".data, "u".data, none,
   "SECRET".data, "localhost".data, "3306".data⟩

def cfgOracle : DatabaseConfig :=
  ⟨"django.db.backends.oracle".data, "shop".data, "u".data, none,
   "SECRET".data, [], []⟩

def cfgPg : DatabaseConfig :=
  ⟨"django.db.backends.postgresql_psycopg2".data, "shop".data, "u".data, none,
   "SECRET".data, "localhost".data, "5432".data⟩

/-- An exit-status oracle that fails exactly on one command line. -/
def exitFailOn (bad : List Str) : List Str → Int :=
  fun c => if c = bad then 1 else 0

def countEq (t : Str) : List Str → Nat
  | [] => 0
  | x :: xs => (if x = t then 1 else 0) + countEq t xs

def isSupportedEngine (e : Str) : Bool :=
  e == "mysql".data || e == "postgresql_psycopg2".data ||
    e == "postgis".data || e == "sqlite3".data

/-- Per-database events of a full (non-aborting) prefix of the handle
loop: backup then cleanup for each database, in order. -/
def fullEvents : List Str → List BackupEvent
  | [] => []
  | p :: rest => BackupEvent.backup p :: BackupEvent.cleanup p :: fullEvents rest

/-- Ten remote backups across four months, none on the first of a month
(the retention example of the spec, keep = 3). -/
def fileList10 : List BackupEntry :=
  [(⟨2015, 3, 5, 1, 0, 0⟩, "b01".data), (⟨2015, 3, 15, 1, 0, 0⟩, "b02".data),
   (⟨2015, 4, 2, 1, 0, 0⟩, "b03".data), (⟨2015, 4, 20, 1, 0, 0⟩, "b04".data),
   (⟨2015, 5, 3, 1, 0, 0⟩, "b05".data), (⟨2015, 5, 12, 1, 0, 0⟩, "b06".data),
   (⟨2015, 5, 25, 1, 0, 0⟩, "b07".data), (⟨2015, 6, 8, 1, 0, 0⟩, "b08".data),
   (⟨2015, 6, 18, 1, 0, 0⟩, "b09".data), (⟨2015, 6, 28, 1, 0, 0⟩, "b10".data)]

/-- A step oracle for the handle loop whose backup step raises on db2. -/
def stepFailDb2 : Str → Bool × Bool :=
  fun d => if d = "db2".data then (false, true) else (true, true)

/-! ## Claim theorems -/

open StrLemmas

/-- C1 counterexample: with keep count 0, the code slices
file_list[0:-0], which is empty in Python, so nothing is selected, while
the claimed selection (every entry other than the 0 most recent whose
day of month is not 1) contains the lone non-anchor entry. -/
theorem C1_counterexample :
    cleanup_old_backups 0 [(⟨2015, 6, 15, 1, 0, 0⟩, "b01".data)] = [] ∧
    selectForDeletion_spec 0 [(⟨2015, 6, 15, 1, 0, 0⟩, "b01".data)] =
      [(⟨2015, 6, 15, 1, 0, 0⟩, "b01".data)] ∧
    cleanup_old_backups 0 [(⟨2015, 6, 15, 1, 0, 0⟩, "b01".data)] ≠
      selectForDeletion_spec 0 [(⟨2015, 6, 15, 1, 0, 0⟩, "b01".data)] := by
  decide

/-- C1 (amended): for every keep count of at least 1 the deleted set is
exactly the entries other than the keep most recent whose day of month
is not 1; an entry dated the first of a month is never deleted for any
keep count; and a listing of at most keep entries yields no deletion. -/
theorem C1_cleanup_selection (keep : Nat) (l : List BackupEntry) :
    (1 ≤ keep → cleanup_old_backups keep l = selectForDeletion_spec keep l) ∧
    (∀ e ∈ cleanup_old_backups keep l, e.1.day ≠ 1) ∧
    (l.length ≤ keep → cleanup_old_backups keep l = []) := by
  refine ⟨?_, ?_, ?_⟩
  · intro hk
    unfold cleanup_old_backups selectForDeletion_spec pySliceDropLast
    rw [if_neg (by omega)]
  · intro e he
    unfold cleanup_old_backups at he
    have h2 := (List.mem_filter.mp he).2
    simpa using h2
  · intro hl
    unfold cleanup_old_backups pySliceDropLast
    by_cases hk : keep = 0
    · rw [if_pos hk]
      rfl
    · rw [if_neg hk]
      have h0 : l.length - keep = 0 := by omega
      rw [h0]
      rfl

/-- C1 witness: keep 3 over the ten-entry listing selects exactly the
seven oldest (none anchored on a month first). -/
theorem C1_cleanup_selection_witness :
    cleanup_old_backups 3 fileList10 = selectForDeletion_spec 3 fileList10 ∧
    (cleanup_old_backups 3 fileList10).length = 7 :=
  ⟨(C1_cleanup_selection 3 fileList10).1 (by decide), by decide⟩

/-- C2: if encryption is requested and the gpg result is falsy, the run
raises the encryption error and records no storage write at all; when
compression and encryption are both requested and encryption succeeds,
the single artifact written is the raw name with .gz then .gpg appended,
so it ends in .gz.gpg. -/
theorem C2_encrypt_pipeline (cmp : Bool) (st : Str) (raw : Artifact) :
    ((save_new_backup cmp true false st raw).1 =
        Except.error ("Encryption failed; status: ".data ++ st) ∧
      (save_new_backup cmp true false st raw).2 = []) ∧
    ((save_new_backup true true true st raw).2 = [raw.name ++ ".gz.gpg".data] ∧
      List.isSuffixOf ".gz.gpg".data (raw.name ++ ".gz.gpg".data) = true) := by
  refine ⟨⟨?_, ?_⟩, ⟨?_, ?_⟩⟩
  · simp [save_new_backup, encrypt_file]
  · simp [save_new_backup, encrypt_file]
  · show ((match encrypt_file true st (if true then compress_file raw else raw) with
      | Except.error e => ((Except.error e : Except Str Artifact), ([] : List Str))
      | Except.ok f2 => (Except.ok f2, [f2.name])) : Except Str Artifact × List Str).2 =
      [raw.name ++ ".gz.gpg".data]
    simp only [encrypt_file, compress_file, if_true, Bool.true_eq_false, if_neg (by simp : ¬(True = False))]
    simp [List.append_assoc]
  · rw [(rfl : (".gz.gpg".data : Str) = ".gz.gpg".data)]
    exact isSuffixOf_append_self ".gz.gpg".data raw.name

/-- C2 witness at a concrete artifact: a failed encryption records no
write; a compressed and encrypted run writes shop.psql.gz.gpg. -/
theorem C2_encrypt_pipeline_witness :
    (save_new_backup true true false "err".data ⟨"shop.psql".data⟩).2 = [] ∧
    (save_new_backup true true true "err".data ⟨"shop.psql".data⟩).2 =
      ["shop.psql".data ++ ".gz.gpg".data] :=
  ⟨(C2_encrypt_pipeline true "err".data ⟨"shop.psql".data⟩).1.2,
   (C2_encrypt_pipeline true "err".data ⟨"shop.psql".data⟩).2.1⟩

/-- C7 counterexample: for the oracle engine (not among mysql,
postgresql_psycopg2, postgis, sqlite3) the DBCommands constructor does
not raise a configuration error: it returns normally with no settings
object (None), deferring the failure to use time. -/
theorem C7_counterexample :
    (DBCommands_init cfgOracle).isOk = true ∧
    initStateSettings (DBCommands_init cfgOracle) = some none := by
  decide

/-- C7 (amended): for every config whose engine identifier is
unsupported, constructing DBCommands succeeds (no error is raised at
construction time) and yields settings = none; the failure is deferred
to the first backup or restore operation. -/
theorem C7_unsupported_engine (db : DatabaseConfig)
    (h : isSupportedEngine (engineOf db.engine) = false) :
    DBCommands_init db = Except.ok ⟨engineOf db.engine, none⟩ := by
  unfold isSupportedEngine at h
  simp only [Bool.or_eq_false_iff, beq_eq_false_iff_ne, ne_eq] at h
  unfold DBCommands_init _get_settings
  rw [if_neg h.1.1.1, if_neg (by
    intro hc
    rcases hc with hc | hc
    · exact h.1.1.2 hc
    · exact h.1.2 hc), if_neg h.2]

/-- C7 witness: the oracle engine is unsupported and construction
returns ok with settings none. -/
theorem C7_unsupported_engine_witness :
    isSupportedEngine (engineOf cfgOracle.engine) = false ∧
    DBCommands_init cfgOracle = Except.ok ⟨engineOf cfgOracle.engine, none⟩ :=
  ⟨by decide, C7_unsupported_engine cfgOracle (by decide)⟩

/-- C8 counterexample: with the bucket, access key and secret key all
missing, the raised StorageError names only DBBACKUP_S3_BUCKET; the
message does not mention the equally missing access key or secret key,
so it does not enumerate every missing setting. -/
theorem C8_counterexample :
    _check_filesystem_errors none none none = some msgS3Bucket ∧
    occursIn "DBBACKUP_S3_ACCESS_KEY".data msgS3Bucket = false ∧
    occursIn "DBBACKUP_S3_SECRET_KEY".data msgS3Bucket = false := by
  decide

/-- C8 (amended): construction fails exactly when one of the three
mandatory settings is falsy, and the StorageError raised names only the
first missing setting in the order bucket, access key, secret key. -/
theorem C8_s3_settings_check (b k s : Option Str) :
    (_check_filesystem_errors b k s = none ↔
      (falsyOpt b = false ∧ falsyOpt k = false ∧ falsyOpt s = false)) ∧
    (falsyOpt b = true → _check_filesystem_errors b k s = some msgS3Bucket) ∧
    (falsyOpt b = false → falsyOpt k = true →
      _check_filesystem_errors b k s = some msgS3AccessKey) ∧
    (falsyOpt b = false → falsyOpt k = false → falsyOpt s = true →
      _check_filesystem_errors b k s = some msgS3SecretKey) := by
  unfold _check_filesystem_errors
  cases hb : falsyOpt b <;> cases hk : falsyOpt k <;> cases hs : falsyOpt s <;>
    simp [msgS3Bucket, msgS3AccessKey, msgS3SecretKey]

/-- C8 witness: bucket configured, keys missing: the error names the
access key (the first missing one). -/
theorem C8_s3_settings_check_witness :
    _check_filesystem_errors (some "bucket".data) none none = some msgS3AccessKey :=
  (C8_s3_settings_check (some "bucket".data) none none).2.2.1 (by decide) (by decide)

/-- C10: in a batch run the databases are processed strictly in
sequence; the first database whose backup or cleanup step raises aborts
the entire run, so the recorded operations are exactly those of the
earlier databases plus the failing database's attempted steps, and no
operation of any later database happens. -/
theorem C10_handle_abort (step : Str → Bool × Bool) (pre : List Str) (d : Str)
    (post : List Str) (hpre : ∀ p ∈ pre, step p = (true, true))
    (hd : (step d).1 = false ∨ (step d).2 = false) :
    handle_loop step (pre ++ d :: post) =
      (fullEvents pre ++
        (if (step d).1 = false then [BackupEvent.backup d]
         else [BackupEvent.backup d, BackupEvent.cleanup d]), some d) := by
  induction pre with
  | nil =>
    show handle_loop step (d :: post) = _
    by_cases h1 : (step d).1 = false
    · unfold handle_loop
      rw [if_pos h1, if_pos h1]
      rfl
    · have h2 : (step d).2 = false := hd.resolve_left h1
      unfold handle_loop
      rw [if_neg h1, if_pos h2, if_neg h1]
      rfl
  | cons p pre' ih =>
    have hp := hpre p (List.mem_cons_self p pre')
    have h1 : ¬((step p).1 = false) := by rw [hp]; simp
    have h2 : ¬((step p).2 = false) := by rw [hp]; simp
    show handle_loop step (p :: (pre' ++ d :: post)) = _
    unfold handle_loop
    rw [if_neg h1, if_neg h2,
      ih (fun q hq => hpre q (List.mem_cons_of_mem p hq))]
    simp [fullEvents]

/-- C10 witness: three databases, the second one's backup raises: db1 is
backed up and cleaned, db2 only attempts its backup, db3 is untouched. -/
theorem C10_handle_abort_witness :
    handle_loop stepFailDb2 (["db1".data] ++ "db2".data :: ["db3".data]) =
      (fullEvents ["db1".data] ++
        (if (stepFailDb2 "db2".data).1 = false then [BackupEvent.backup "db2".data]
         else [BackupEvent.backup "db2".data, BackupEvent.cleanup "db2".data]),
       some "db2".data) :=
  C10_handle_abort stepFailDb2 ["db1".data] "db2".data ["db3".data]
    (by decide) (by decide)

/-! ## Pipeline runner lemmas and C3 -/

theorem run_command_fail (db : DatabaseConfig) (exitOf : List Str → Int)
    (cmd : List Str) (h : exitOf (stripMarkers cmd) ≠ 0) :
    run_command db exitOf cmd =
      ⟨_clean_passwd db ("  Running: ".data ++ joinSpace (stripMarkers cmd)),
       Except.error ("Error running: ".data ++ pyReprList (stripMarkers cmd))⟩ := by
  unfold run_command
  rw [if_pos h]

theorem run_command_ok (db : DatabaseConfig) (exitOf : List Str → Int)
    (cmd : List Str) (h : ¬ exitOf (stripMarkers cmd) ≠ 0) :
    run_command db exitOf cmd =
      ⟨_clean_passwd db ("  Running: ".data ++ joinSpace (stripMarkers cmd)),
       Except.ok ()⟩ := by
  unfold run_command
  rw [if_neg h]

theorem run_commands_cons (db : DatabaseConfig) (exitOf : List Str → Int)
    (c : List Str) (rest : List (List Str)) :
    run_commands db exitOf (c :: rest) =
      run_one db exitOf c (run_commands db exitOf rest) := rfl

theorem run_one_virtual (db : DatabaseConfig) (exitOf : List Str → Int)
    (c : List Str) (t : RunTrace)
    (hv : isVirtual (translate_command db c) = true) :
    (run_one db exitOf c t).executed = translate_command db c :: t.executed ∧
    (run_one db exitOf c t).err = t.err := by
  unfold isVirtual at hv
  simp only [Bool.or_eq_true, beq_iff_eq] at hv
  by_cases h1 : (translate_command db c).head? = some READ_FILE
  · unfold run_one
    rw [if_pos h1]
    exact ⟨rfl, rfl⟩
  · have h2 := hv.resolve_left h1
    unfold run_one
    rw [if_neg h1, if_pos h2]
    exact ⟨rfl, rfl⟩

theorem run_one_fail (db : DatabaseConfig) (exitOf : List Str → Int)
    (c : List Str) (t : RunTrace)
    (hv : isVirtual (translate_command db c) = false)
    (hf : exitOf (stripMarkers (translate_command db c)) ≠ 0) :
    run_one db exitOf c t =
      ⟨[translate_command db c],
       [(run_command db exitOf (translate_command db c)).printed],
       some ("Error running: ".data ++
         pyReprList (stripMarkers (translate_command db c)))⟩ := by
  unfold isVirtual at hv
  simp only [Bool.or_eq_false_iff, beq_eq_false_iff_ne, ne_eq] at hv
  unfold run_one
  rw [if_neg hv.1, if_neg hv.2, run_command_fail db exitOf (translate_command db c) hf]

theorem run_one_ok (db : DatabaseConfig) (exitOf : List Str → Int)
    (c : List Str) (t : RunTrace)
    (hv : isVirtual (translate_command db c) = false)
    (hf : ¬ exitOf (stripMarkers (translate_command db c)) ≠ 0) :
    (run_one db exitOf c t).executed = translate_command db c :: t.executed ∧
    (run_one db exitOf c t).err = t.err := by
  unfold isVirtual at hv
  simp only [Bool.or_eq_false_iff, beq_eq_false_iff_ne, ne_eq] at hv
  unfold run_one
  rw [if_neg hv.1, if_neg hv.2, run_command_ok db exitOf (translate_command db c) hf]
  exact ⟨rfl, rfl⟩

/-- C3: run_commands dispatches the sequence strictly in order; at the
first command whose process exits non-zero it raises CommandError
naming that command, and no later command in the sequence is executed
(in particular the PostgreSQL drop / create / import restore never
reaches import when an earlier step fails). -/
theorem C3_run_commands_fail_fast (db : DatabaseConfig) (exitOf : List Str → Int)
    (pre : List (List Str)) (c : List Str) (post : List (List Str))
    (hpre : ∀ p ∈ pre, failsAt db exitOf p = false)
    (hc : failsAt db exitOf c = true) :
    (run_commands db exitOf (pre ++ c :: post)).executed =
      (pre ++ [c]).map (translate_command db) ∧
    (run_commands db exitOf (pre ++ c :: post)).err =
      some ("Error running: ".data ++
        pyReprList (stripMarkers (translate_command db c))) := by
  have hcv : isVirtual (translate_command db c) = false ∧
      exitOf (stripMarkers (translate_command db c)) ≠ 0 := by
    unfold failsAt at hc
    rw [Bool.and_eq_true] at hc
    refine ⟨?_, of_decide_eq_true hc.2⟩
    cases hiv : isVirtual (translate_command db c)
    · rfl
    · rw [hiv] at hc
      simp at hc
  induction pre with
  | nil =>
    rw [List.nil_append, run_commands_cons,
      run_one_fail db exitOf c (run_commands db exitOf post) hcv.1 hcv.2]
    exact ⟨by simp, rfl⟩
  | cons p pre' ih =>
    have hp := hpre p (List.mem_cons_self p pre')
    have hrec := ih (fun q hq => hpre q (List.mem_cons_of_mem p hq))
    rw [List.cons_append, run_commands_cons]
    by_cases hv : isVirtual (translate_command db p) = true
    · have h := run_one_virtual db exitOf p
        (run_commands db exitOf (pre' ++ c :: post)) hv
      refine ⟨?_, ?_⟩
      · rw [h.1, hrec.1]
        simp
      · rw [h.2, hrec.2]
    · have hiv : isVirtual (translate_command db p) = false := Bool.eq_false_iff.mpr hv
      have hok : ¬ exitOf (stripMarkers (translate_command db p)) ≠ 0 := by
        unfold failsAt at hp
        rw [hiv] at hp
        simp only [Bool.not_false, Bool.true_and] at hp
        exact of_decide_eq_false hp
      have h := run_one_ok db exitOf p
        (run_commands db exitOf (pre' ++ c :: post)) hiv hok
      refine ⟨?_, ?_⟩
      · rw [h.1, hrec.1]
        simp
      · rw [h.2, hrec.2]

def pgDropResolved : List Str :=
  stripMarkers (translate_command cfgPg (shlexSplit (pg_dropdb_command cfgPg)))

def pgExit : List Str → Int := exitFailOn pgDropResolved

/-- C3 witness: on the PostgreSQL restore template, a failing dropdb
step leaves exactly one executed command and surfaces its error; the
createdb and import vectors are never dispatched. -/
theorem C3_run_commands_fail_fast_witness :
    (run_commands cfgPg pgExit (pg_restore_commands cfgPg)).executed =
      (([] : List (List Str)) ++ [shlexSplit (pg_dropdb_command cfgPg)]).map
        (translate_command cfgPg) ∧
    (run_commands cfgPg pgExit (pg_restore_commands cfgPg)).err =
      some ("Error running: ".data ++
        pyReprList (stripMarkers (translate_command cfgPg
          (shlexSplit (pg_dropdb_command cfgPg))))) :=
  C3_run_commands_fail_fast cfgPg pgExit []
    (shlexSplit (pg_dropdb_command cfgPg))
    [shlexSplit (pg_createdb_command cfgPg), shlexSplit (pg_import_command cfgPg)]
    (by simp) (by decide)

/-! ## Credential substitution lemmas and C5 -/

/-- A value that does not occur as any recognised token is left unchanged
by translate_command (per argument). -/
theorem translateArg_id (db : DatabaseConfig) (s : Str)
    (h1 : occursIn patAdminuser s = false) (h2 : occursIn patUsername s = false)
    (h3 : occursIn patPassword s = false) (h4 : occursIn patDatabasename s = false)
    (h5 : occursIn patHost s = false) (h6 : occursIn patPort s = false) :
    translateArg db s = s := by
  unfold translateArg
  rw [pyReplace_no_occ s patAdminuser (adminuserOf db) h1,
    pyReplace_no_occ s patUsername db.user h2,
    pyReplace_no_occ s patPassword db.password h3,
    pyReplace_no_occ s patDatabasename db.name h4,
    pyReplace_no_occ s patHost db.host h5,
    pyReplace_no_occ s patPort db.port h6]

/-- A brace-free value is untouched by any placeholder replacement. -/
theorem pyReplace_value_fixed (v pat rep : Str) (p : Char) (pt : Str)
    (hpat : pat = p :: pt) (hv : p ∉ v) : pyReplace v pat rep = v :=
  pyReplace_no_occ v pat rep (occursIn_eq_false_of_head_notMem v pat p pt hpat hv)

theorem translateArg_adminuser_token (db : DatabaseConfig)
    (hA : lbrace ∉ adminuserOf db) :
    translateArg db patAdminuser = adminuserOf db := by
  unfold translateArg
  rw [pyReplace_self patAdminuser (adminuserOf db) (by decide),
    pyReplace_value_fixed (adminuserOf db) patUsername db.user lbrace
      "username\x7d".data (by decide) hA,
    pyReplace_value_fixed (adminuserOf db) patPassword db.password lbrace
      "password\x7d".data (by decide) hA,
    pyReplace_value_fixed (adminuserOf db) patDatabasename db.name lbrace
      "databasename\x7d".data (by decide) hA,
    pyReplace_value_fixed (adminuserOf db) patHost db.host lbrace
      "host\x7d".data (by decide) hA,
    pyReplace_value_fixed (adminuserOf db) patPort db.port lbrace
      "port\x7d".data (by decide) hA]

theorem translateArg_username_token (db : DatabaseConfig)
    (hU : lbrace ∉ db.user) :
    translateArg db patUsername = db.user := by
  unfold translateArg
  rw [pyReplace_no_occ patUsername patAdminuser (adminuserOf db) (by decide),
    pyReplace_self patUsername db.user (by decide),
    pyReplace_value_fixed db.user patPassword db.password lbrace
      "password\x7d".data (by decide) hU,
    pyReplace_value_fixed db.user patDatabasename db.name lbrace
      "databasename\x7d".data (by decide) hU,
    pyReplace_value_fixed db.user patHost db.host lbrace
      "host\x7d".data (by decide) hU,
    pyReplace_value_fixed db.user patPort db.port lbrace
      "port\x7d".data (by decide) hU]

theorem translateArg_password_token (db : DatabaseConfig)
    (hP : lbrace ∉ db.password) :
    translateArg db patPassword = db.password := by
  unfold translateArg
  rw [pyReplace_no_occ patPassword patAdminuser (adminuserOf db) (by decide),
    pyReplace_no_occ patPassword patUsername db.user (by decide),
    pyReplace_self patPassword db.password (by decide),
    pyReplace_value_fixed db.password patDatabasename db.name lbrace
      "databasename\x7d".data (by decide) hP,
    pyReplace_value_fixed db.password patHost db.host lbrace
      "host\x7d".data (by decide) hP,
    pyReplace_value_fixed db.password patPort db.port lbrace
      "port\x7d".data (by decide) hP]

theorem translateArg_databasename_token (db : DatabaseConfig)
    (hN : lbrace ∉ db.name) :
    translateArg db patDatabasename = db.name := by
  unfold translateArg
  rw [pyReplace_no_occ patDatabasename patAdminuser (adminuserOf db) (by decide),
    pyReplace_no_occ patDatabasename patUsername db.user (by decide),
    pyReplace_no_occ patDatabasename patPassword db.password (by decide),
    pyReplace_self patDatabasename db.name (by decide),
    pyReplace_value_fixed db.name patHost db.host lbrace
      "host\x7d".data (by decide) hN,
    pyReplace_value_fixed db.name patPort db.port lbrace
      "port\x7d".data (by decide) hN]

theorem translateArg_host_token (db : DatabaseConfig)
    (hH : lbrace ∉ db.host) :
    translateArg db patHost = db.host := by
  unfold translateArg
  rw [pyReplace_no_occ patHost patAdminuser (adminuserOf db) (by decide),
    pyReplace_no_occ patHost patUsername db.user (by decide),
    pyReplace_no_occ patHost patPassword db.password (by decide),
    pyReplace_no_occ patHost patDatabasename db.name (by decide),
    pyReplace_self patHost db.host (by decide),
    pyReplace_value_fixed db.host patPort db.port lbrace
      "port\x7d".data (by decide) hH]

theorem translateArg_port_token (db : DatabaseConfig) :
    translateArg db patPort = db.port := by
  unfold translateArg
  rw [pyReplace_no_occ patPort patAdminuser (adminuserOf db) (by decide),
    pyReplace_no_occ patPort patUsername db.user (by decide),
    pyReplace_no_occ patPort patPassword db.password (by decide),
    pyReplace_no_occ patPort patDatabasename db.name (by decide),
    pyReplace_no_occ patPort patHost db.host (by decide),
    pyReplace_self patPort db.port (by decide)]

/-- C5: credential substitution is a pure function of the config and the
template; an argument in which no recognised token occurs - in
particular any unknown placeholder - passes through unchanged (never an
error), and substitution is total on all six recognised tokens, mapping
each to its configured literal (for credential values that do not
themselves contain placeholder syntax). -/
theorem C5_translate_total (db : DatabaseConfig)
    (hA : lbrace ∉ adminuserOf db) (hU : lbrace ∉ db.user)
    (hP : lbrace ∉ db.password) (hN : lbrace ∉ db.name) (hH : lbrace ∉ db.host) :
    (∀ s, occursIn patAdminuser s = false → occursIn patUsername s = false →
        occursIn patPassword s = false → occursIn patDatabasename s = false →
        occursIn patHost s = false → occursIn patPort s = false →
        translateArg db s = s) ∧
    translateArg db patAdminuser = adminuserOf db ∧
    translateArg db patUsername = db.user ∧
    translateArg db patPassword = db.password ∧
    translateArg db patDatabasename = db.name ∧
    translateArg db patHost = db.host ∧
    translateArg db patPort = db.port :=
  ⟨fun s h1 h2 h3 h4 h5 h6 => translateArg_id db s h1 h2 h3 h4 h5 h6,
   translateArg_adminuser_token db hA, translateArg_username_token db hU,
   translateArg_password_token db hP, translateArg_databasename_token db hN,
   translateArg_host_token db hH, translateArg_port_token db⟩

/-- C5 witness: on the concrete config, the unknown placeholder token
foo passes through unchanged and the password token is substituted. -/
theorem C5_translate_total_witness :
    translateArg cfgMySQL "\x7bfoo\x7d".data = "\x7bfoo\x7d".data ∧
    translateArg cfgMySQL patPassword = cfgMySQL.password :=
  ⟨(C5_translate_total cfgMySQL (by decide) (by decide) (by decide) (by decide)
      (by decide)).1 "\x7bfoo\x7d".data (by decide) (by decide) (by decide)
      (by decide) (by decide) (by decide),
   (C5_translate_total cfgMySQL (by decide) (by decide) (by decide) (by decide)
      (by decide)).2.2.2.1⟩

/-! ## Redaction: C6 -/

/-- C6 counterexample: with password SECRET and the resolved MySQL
backup vector failing, the CommandError surfaced by run_command embeds
the unredacted command repr, and the password substring does occur in
the surfaced message. -/
theorem C6_counterexample :
    occursIn cfgMySQL.password
      (errMsgOf (run_command cfgMySQL
        (exitFailOn (stripMarkers (mysql_backup_resolved cfgMySQL)))
        (mysql_backup_resolved cfgMySQL))) = true := by
  decide

/-- C6 (amended): the log line printed for a spawned command is passed
through _clean_passwd, and for a nonempty password containing no
asterisk the password never occurs in that printed line; the
CommandError raised on non-zero exit, however, carries the offending
command line unredacted ("Error running: " followed by the plain list
repr), so the password can appear in the surfaced error message. -/
theorem C6_redaction (db : DatabaseConfig) (exitOf : List Str → Int)
    (cmd : List Str) (hP1 : db.password ≠ []) (hP2 : star ∉ db.password) :
    occursIn db.password (run_command db exitOf cmd).printed = false ∧
    (exitOf (stripMarkers cmd) ≠ 0 →
      (run_command db exitOf cmd).result =
        Except.error ("Error running: ".data ++ pyReprList (stripMarkers cmd))) := by
  have hdis : ∀ c ∈ db.password, c ∉ MASK := by
    intro c hc hmem
    have hcs : c = star := by
      simpa [MASK] using hmem
    exact hP2 (hcs ▸ hc)
  constructor
  · have hprinted : (run_command db exitOf cmd).printed =
        _clean_passwd db ("  Running: ".data ++ joinSpace (stripMarkers cmd)) := by
      unfold run_command
      by_cases h : exitOf (stripMarkers cmd) ≠ 0
      · rw [if_pos h]
      · rw [if_neg h]
    rw [hprinted]
    unfold _clean_passwd
    exact occursIn_pyReplace_self
      ("  Running: ".data ++ joinSpace (stripMarkers cmd)).length
      ("  Running: ".data ++ joinSpace (stripMarkers cmd))
      db.password MASK (Nat.le_refl _) hP1 hdis (by decide)
  · intro h
    rw [run_command_fail db exitOf cmd h]

/-- C6 witness: concrete failing command: the printed line is clean of
the password and the raised error carries the raw command repr. -/
theorem C6_redaction_witness :
    occursIn cfgMySQL.password
      (run_command cfgMySQL (exitFailOn ["x".data]) ["x".data]).printed = false ∧
    (run_command cfgMySQL (exitFailOn ["x".data]) ["x".data]).result =
      Except.error ("Error running: ".data ++ pyReprList (stripMarkers ["x".data])) := by
  have h := C6_redaction cfgMySQL (exitFailOn ["x".data]) ["x".data]
    (by decide) (by decide)
  exact ⟨h.1, h.2 (by decide)⟩

/-! ## MySQL backup vector: C4 -/

/-- A concrete token prefix followed by a brace-free value is untouched
by a placeholder replacement whose head is the brace. -/
theorem pyReplace_concatValue_fixed (x v pat rep : Str) (p : Char) (pt : Str)
    (hpat : pat = p :: pt) (hx : p ∉ x) (hv : p ∉ v) :
    pyReplace (x ++ v) pat rep = x ++ v := by
  apply pyReplace_no_occ
  rw [occursIn_append_skip x v pat p pt hpat hx]
  exact occursIn_eq_false_of_head_notMem v pat p pt hpat hv

theorem translateArg_user_flag (db : DatabaseConfig)
    (hA : lbrace ∉ adminuserOf db) :
    translateArg db "--user=\x7badminuser\x7d".data =
      "--user=".data ++ adminuserOf db := by
  unfold translateArg
  rw [show ("--user=\x7badminuser\x7d".data : Str) = "--user=".data ++ patAdminuser
    from by decide]
  rw [pyReplace_skip "--user=".data patAdminuser patAdminuser (adminuserOf db)
      lbrace "adminuser\x7d".data (by decide) (by decide),
    pyReplace_self patAdminuser (adminuserOf db) (by decide),
    pyReplace_concatValue_fixed "--user=".data (adminuserOf db) patUsername db.user
      lbrace "username\x7d".data (by decide) (by decide) hA,
    pyReplace_concatValue_fixed "--user=".data (adminuserOf db) patPassword db.password
      lbrace "password\x7d".data (by decide) (by decide) hA,
    pyReplace_concatValue_fixed "--user=".data (adminuserOf db) patDatabasename db.name
      lbrace "databasename\x7d".data (by decide) (by decide) hA,
    pyReplace_concatValue_fixed "--user=".data (adminuserOf db) patHost db.host
      lbrace "host\x7d".data (by decide) (by decide) hA,
    pyReplace_concatValue_fixed "--user=".data (adminuserOf db) patPort db.port
      lbrace "port\x7d".data (by decide) (by decide) hA]

theorem translateArg_password_flag (db : DatabaseConfig)
    (hP : lbrace ∉ db.password) :
    translateArg db "--password=\x7bpassword\x7d".data =
      "--password=".data ++ db.password := by
  unfold translateArg
  rw [pyReplace_no_occ "--password=\x7bpassword\x7d".data patAdminuser
      (adminuserOf db) (by decide),
    pyReplace_no_occ "--password=\x7bpassword\x7d".data patUsername db.user (by decide)]
  rw [show ("--password=\x7bpassword\x7d".data : Str) = "--password=".data ++ patPassword
    from by decide]
  rw [pyReplace_skip "--password=".data patPassword patPassword db.password
      lbrace "password\x7d".data (by decide) (by decide),
    pyReplace_self patPassword db.password (by decide),
    pyReplace_concatValue_fixed "--password=".data db.password patDatabasename db.name
      lbrace "databasename\x7d".data (by decide) (by decide) hP,
    pyReplace_concatValue_fixed "--password=".data db.password patHost db.host
      lbrace "host\x7d".data (by decide) (by decide) hP,
    pyReplace_concatValue_fixed "--password=".data db.password patPort db.port
      lbrace "port\x7d".data (by decide) (by decide) hP]

theorem translateArg_host_flag (db : DatabaseConfig)
    (hH : lbrace ∉ db.host) :
    translateArg db "--host=\x7bhost\x7d".data = "--host=".data ++ db.host := by
  unfold translateArg
  rw [pyReplace_no_occ "--host=\x7bhost\x7d".data patAdminuser
      (adminuserOf db) (by decide),
    pyReplace_no_occ "--host=\x7bhost\x7d".data patUsername db.user (by decide),
    pyReplace_no_occ "--host=\x7bhost\x7d".data patPassword db.password (by decide),
    pyReplace_no_occ "--host=\x7bhost\x7d".data patDatabasename db.name (by decide)]
  rw [show ("--host=\x7bhost\x7d".data : Str) = "--host=".data ++ patHost
    from by decide]
  rw [pyReplace_skip "--host=".data patHost patHost db.host
      lbrace "host\x7d".data (by decide) (by decide),
    pyReplace_self patHost db.host (by decide),
    pyReplace_concatValue_fixed "--host=".data db.host patPort db.port
      lbrace "port\x7d".data (by decide) (by decide) hH]

theorem translateArg_port_flag (db : DatabaseConfig) :
    translateArg db "--port=\x7bport\x7d".data = "--port=".data ++ db.port := by
  unfold translateArg
  rw [pyReplace_no_occ "--port=\x7bport\x7d".data patAdminuser
      (adminuserOf db) (by decide),
    pyReplace_no_occ "--port=\x7bport\x7d".data patUsername db.user (by decide),
    pyReplace_no_occ "--port=\x7bport\x7d".data patPassword db.password (by decide),
    pyReplace_no_occ "--port=\x7bport\x7d".data patDatabasename db.name (by decide),
    pyReplace_no_occ "--port=\x7bport\x7d".data patHost db.host (by decide)]
  rw [show ("--port=\x7bport\x7d".data : Str) = "--port=".data ++ patPort
    from by decide]
  rw [pyReplace_skip "--port=".data patPort patPort db.port
      lbrace "port\x7d".data (by decide) (by decide),
    pyReplace_self patPort db.port (by decide)]

/-- The resolved MySQL backup vector, for a config with nonempty host
and port whose values carry no placeholder syntax. -/
theorem mysql_backup_resolved_eq (db : DatabaseConfig)
    (hHost : db.host ≠ []) (hPort : db.port ≠ [])
    (hA : lbrace ∉ adminuserOf db) (hP : lbrace ∉ db.password)
    (hN : lbrace ∉ db.name) (hH : lbrace ∉ db.host) :
    mysql_backup_resolved db =
      ["mysqldump".data, "--user=".data ++ adminuserOf db,
       "--password=".data ++ db.password, "--host=".data ++ db.host,
       "--port=".data ++ db.port, db.name, ">".data] := by
  unfold mysql_backup_resolved
  have hcmd : mysql_backup_command_string db =
      "mysqldump --user=\x7badminuser\x7d --password=\x7bpassword\x7d --host=\x7bhost\x7d --port=\x7bport\x7d \x7bdatabasename\x7d >".data := by
    unfold mysql_backup_command_string
    rw [if_pos hHost, if_pos hPort]
    decide
  rw [hcmd]
  rw [show shlexSplit "mysqldump --user=\x7badminuser\x7d --password=\x7bpassword\x7d --host=\x7bhost\x7d --port=\x7bport\x7d \x7bdatabasename\x7d >".data =
      ["mysqldump".data, "--user=\x7badminuser\x7d".data,
       "--password=\x7bpassword\x7d".data, "--host=\x7bhost\x7d".data,
       "--port=\x7bport\x7d".data, patDatabasename, ">".data] from by decide]
  unfold translate_command
  simp only [List.map]
  rw [translateArg_id db "mysqldump".data (by decide) (by decide) (by decide)
      (by decide) (by decide) (by decide),
    translateArg_user_flag db hA,
    translateArg_password_flag db hP,
    translateArg_host_flag db hH,
    translateArg_port_flag db,
    translateArg_databasename_token db hN,
    translateArg_id db ">".data (by decide) (by decide) (by decide)
      (by decide) (by decide) (by decide)]

theorem ne_of_getElem_vals (x y : Str) (i : Nat) (a b : Char)
    (hx : x[i]? = some a) (hy : y[i]? = some b) (hab : a ≠ b) : x ≠ y :=
  fun he => hab (Option.some.inj (by rw [← hx, he]; exact hy))

/-- C4 counterexample: for the concrete MySQL config with password
SECRET, the resolved backup vector has exactly one host and one port
flag, but it does contain the literal password (inside the
--password=SECRET token built by get_backup_commands), so the conjunction
claimed (including "never contains the literal password value") fails. -/
theorem C4_counterexample :
    ¬ (countEq ("--host=".data ++ cfgMySQL.host) (mysql_backup_resolved cfgMySQL) = 1 ∧
       countEq ("--port=".data ++ cfgMySQL.port) (mysql_backup_resolved cfgMySQL) = 1 ∧
       (mysql_backup_resolved cfgMySQL).all
         (fun t => !occursIn cfgMySQL.password t) = true) := by
  decide

/-- C4 (amended): for every MySQL config with nonempty host and port
(values free of placeholder syntax, database name not colliding with a
flag token), the resolved backup vector is exactly mysqldump --user=A
--password=P --host=H --port=PT NAME > : it contains exactly one host
flag, exactly one port flag, and exactly one --password=P token carrying
the literal password (rather than never containing it). -/
theorem C4_mysql_backup_vector (db : DatabaseConfig)
    (hHost : db.host ≠ []) (hPort : db.port ≠ [])
    (hA : lbrace ∉ adminuserOf db) (hP : lbrace ∉ db.password)
    (hN : lbrace ∉ db.name) (hH : lbrace ∉ db.host)
    (hN1 : db.name ≠ "--host=".data ++ db.host)
    (hN2 : db.name ≠ "--port=".data ++ db.port)
    (hN3 : db.name ≠ "--password=".data ++ db.password) :
    mysql_backup_resolved db =
      ["mysqldump".data, "--user=".data ++ adminuserOf db,
       "--password=".data ++ db.password, "--host=".data ++ db.host,
       "--port=".data ++ db.port, db.name, ">".data] ∧
    countEq ("--host=".data ++ db.host) (mysql_backup_resolved db) = 1 ∧
    countEq ("--port=".data ++ db.port) (mysql_backup_resolved db) = 1 ∧
    countEq ("--password=".data ++ db.password) (mysql_backup_resolved db) = 1 := by
  have hvec := mysql_backup_resolved_eq db hHost hPort hA hP hN hH
  refine ⟨hvec, ?_, ?_, ?_⟩
  · rw [hvec]
    have n1 : "mysqldump".data ≠ "--host=".data ++ db.host :=
      ne_of_getElem_vals _ _ 0 (Char.ofNat 109) dash rfl rfl (by decide)
    have n2 : "--user=".data ++ adminuserOf db ≠ "--host=".data ++ db.host :=
      ne_of_getElem_vals _ _ 2 (Char.ofNat 117) (Char.ofNat 104) rfl rfl (by decide)
    have n3 : "--password=".data ++ db.password ≠ "--host=".data ++ db.host :=
      ne_of_getElem_vals _ _ 2 (Char.ofNat 112) (Char.ofNat 104) rfl rfl (by decide)
    have n5 : "--port=".data ++ db.port ≠ "--host=".data ++ db.host :=
      ne_of_getElem_vals _ _ 2 (Char.ofNat 112) (Char.ofNat 104) rfl rfl (by decide)
    have n7 : (">".data : Str) ≠ "--host=".data ++ db.host :=
      ne_of_getElem_vals _ _ 0 (Char.ofNat 62) dash rfl rfl (by decide)
    simp [countEq, n1, n2, n3, n5, n7]
    exact hN1
  · rw [hvec]
    have n1 : "mysqldump".data ≠ "--port=".data ++ db.port :=
      ne_of_getElem_vals _ _ 0 (Char.ofNat 109) dash rfl rfl (by decide)
    have n2 : "--user=".data ++ adminuserOf db ≠ "--port=".data ++ db.port :=
      ne_of_getElem_vals _ _ 2 (Char.ofNat 117) (Char.ofNat 112) rfl rfl (by decide)
    have n3 : "--password=".data ++ db.password ≠ "--port=".data ++ db.port :=
      ne_of_getElem_vals _ _ 3 (Char.ofNat 97) (Char.ofNat 111) rfl rfl (by decide)
    have n4 : "--host=".data ++ db.host ≠ "--port=".data ++ db.port :=
      ne_of_getElem_vals _ _ 2 (Char.ofNat 104) (Char.ofNat 112) rfl rfl (by decide)
    have n7 : (">".data : Str) ≠ "--port=".data ++ db.port :=
      ne_of_getElem_vals _ _ 0 (Char.ofNat 62) dash rfl rfl (by decide)
    simp [countEq, n1, n2, n3, n4, n7]
    exact hN2
  · rw [hvec]
    have n1 : "mysqldump".data ≠ "--password=".data ++ db.password :=
      ne_of_getElem_vals _ _ 0 (Char.ofNat 109) dash rfl rfl (by decide)
    have n2 : "--user=".data ++ adminuserOf db ≠ "--password=".data ++ db.password :=
      ne_of_getElem_vals _ _ 2 (Char.ofNat 117) (Char.ofNat 112) rfl rfl (by decide)
    have n4 : "--host=".data ++ db.host ≠ "--password=".data ++ db.password :=
      ne_of_getElem_vals _ _ 2 (Char.ofNat 104) (Char.ofNat 112) rfl rfl (by decide)
    have n5 : "--port=".data ++ db.port ≠ "--password=".data ++ db.password :=
      ne_of_getElem_vals _ _ 3 (Char.ofNat 111) (Char.ofNat 97) rfl rfl (by decide)
    have n7 : (">".data : Str) ≠ "--password=".data ++ db.password :=
      ne_of_getElem_vals _ _ 0 (Char.ofNat 62) dash rfl rfl (by decide)
    simp [countEq, n1, n2, n4, n5, n7]
    exact hN3

/-- C4 witness at the concrete MySQL config. -/
theorem C4_mysql_backup_vector_witness :
    mysql_backup_resolved cfgMySQL =
      ["mysqldump".data, "--user=".data ++ adminuserOf cfgMySQL,
       "--password=".data ++ cfgMySQL.password, "--host=".data ++ cfgMySQL.host,
       "--port=".data ++ cfgMySQL.port, cfgMySQL.name, ">".data] ∧
    countEq ("--host=".data ++ cfgMySQL.host) (mysql_backup_resolved cfgMySQL) = 1 ∧
    countEq ("--port=".data ++ cfgMySQL.port) (mysql_backup_resolved cfgMySQL) = 1 ∧
    countEq ("--password=".data ++ cfgMySQL.password)
      (mysql_backup_resolved cfgMySQL) = 1 :=
  C4_mysql_backup_vector cfgMySQL (by decide) (by decide) (by decide) (by decide)
    (by decide) (by decide) (by decide) (by decide) (by decide)

/-! ## Filename generation: C9 -/

/-- C9 counterexample: a databasename ending in a hyphen produces a run
of three hyphens with an empty servername; one replace pass of two
hyphens by one leaves a doubled hyphen in the generated filename, so
repeated hyphens do not collapse to a single one for every combination. -/
theorem C9_counterexample :
    occursIn [dash, dash]
      (dbCommands_filename "a-".data [] "ts".data "psql".data "None".data
        "2016-01-02-030405".data) = true := by
  decide

/-- C9 (amended): with an empty servername, for every databasename,
datetime and extension themselves free of doubled hyphens and of
placeholder syntax, with the databasename not ending in a hyphen and
the datetime not starting with one, the generated filename is
databasename-datetime.extension: the doubled hyphen of the template
collapses, and no doubled hyphen remains.  (A databasename with a
trailing hyphen defeats the single replace pass, as the counterexample
shows, so the universal claim is restricted to these inputs.) -/
theorem C9_filename_collapse (D T E tsR wcR : Str)
    (hDb : lbrace ∉ D) (hDs : slashChar ∉ D)
    (hD1 : occursIn [dash, dash] D = false) (hD2 : D.getLast? ≠ some dash)
    (hEb : lbrace ∉ E) (hE1 : occursIn [dash, dash] E = false)
    (hT1 : T.head? ≠ some dash) (hT2 : occursIn [dash, dash] T = false) :
    dbCommands_filename D [] tsR E wcR T = D ++ dash :: (T ++ dotChar :: E) ∧
    occursIn [dash, dash] (dbCommands_filename D [] tsR E wcR T) = false := by
  have hslash : pyReplace D [slashChar] "_".data = D :=
    pyReplace_value_fixed D [slashChar] "_".data slashChar [] rfl hDs
  have e1 : pyReplace FILENAME_TEMPLATE patDatabasename D =
      D ++ "-\x7bservername\x7d-\x7bdatetime\x7d.\x7bextension\x7d".data := by
    rw [show FILENAME_TEMPLATE =
      patDatabasename ++ "-\x7bservername\x7d-\x7bdatetime\x7d.\x7bextension\x7d".data
      from by decide]
    rw [pyReplace_front _ patDatabasename D (by decide),
      pyReplace_no_occ _ patDatabasename D (by decide)]
  have e2 : pyReplace
      (D ++ "-\x7bservername\x7d-\x7bdatetime\x7d.\x7bextension\x7d".data)
      patServername [] = D ++ "--\x7bdatetime\x7d.\x7bextension\x7d".data := by
    rw [pyReplace_skip D _ patServername [] lbrace "servername\x7d".data
      (by decide) hDb]
    congr 1
  have e3 : pyReplace (D ++ "--\x7bdatetime\x7d.\x7bextension\x7d".data)
      patTimestamp tsR = D ++ "--\x7bdatetime\x7d.\x7bextension\x7d".data := by
    apply pyReplace_no_occ
    rw [occursIn_append_skip D _ patTimestamp lbrace "timestamp\x7d".data
      (by decide) hDb]
    decide
  have e4 : pyReplace (D ++ "--\x7bdatetime\x7d.\x7bextension\x7d".data)
      patExtension E = D ++ ("--\x7bdatetime\x7d.".data ++ E) := by
    rw [pyReplace_skip D _ patExtension E lbrace "extension\x7d".data
      (by decide) hDb]
    congr 1
    rw [show ("--\x7bdatetime\x7d.\x7bextension\x7d".data : Str) =
      "--\x7bdatetime\x7d.".data ++ (patExtension ++ []) from by decide]
    rw [pyReplace_chunk "--\x7bdatetime\x7d.".data [] patExtension E
      (by decide) (by decide)]
    rw [pyReplace_nil]
    simp
  have e5 : pyReplace (D ++ ("--\x7bdatetime\x7d.".data ++ E)) patWildcard wcR =
      D ++ ("--\x7bdatetime\x7d.".data ++ E) := by
    apply pyReplace_no_occ
    rw [occursIn_append_skip D _ patWildcard lbrace "wildcard\x7d".data
      (by decide) hDb]
    apply occursIn_append_of_mismatch
    · decide
    · exact occursIn_eq_false_of_head_notMem E patWildcard lbrace
        "wildcard\x7d".data (by decide) hEb
  have e6 : pyReplace (D ++ ("--\x7bdatetime\x7d.".data ++ E)) patDatetime T =
      D ++ (dash :: dash :: (T ++ dotChar :: E)) := by
    have hshape : D ++ ("--\x7bdatetime\x7d.".data ++ E) =
        (D ++ [dash, dash]) ++ (patDatetime ++ ([dotChar] ++ E)) := by
      rw [show ("--\x7bdatetime\x7d.".data : Str) =
        [dash, dash] ++ (patDatetime ++ [dotChar]) from by decide]
      simp [List.append_assoc]
    rw [hshape]
    rw [pyReplace_skip (D ++ [dash, dash]) _ patDatetime T lbrace
      "datetime\x7d".data (by decide) (by
        intro hmem
        rcases List.mem_append.mp hmem with h | h
        · exact hDb h
        · exact absurd h (by decide))]
    rw [pyReplace_front _ patDatetime T (by decide)]
    rw [pyReplace_skip [dotChar] E patDatetime T lbrace "datetime\x7d".data
      (by decide) (by decide)]
    rw [pyReplace_no_occ E patDatetime T
      (occursIn_eq_false_of_head_notMem E patDatetime lbrace "datetime\x7d".data
        (by decide) hEb)]
    simp [List.append_assoc]
  have hWhead : (T ++ dotChar :: E).head? ≠ some dash := by
    cases T with
    | nil =>
      intro hh
      rw [List.nil_append, List.head?_cons] at hh
      exact absurd (Option.some.inj hh) (by decide)
    | cons t T' =>
      intro hh
      rw [List.cons_append, List.head?_cons] at hh
      exact hT1 (by rw [List.head?_cons]; exact hh)
  have hz : occursIn [dash, dash] (T ++ dotChar :: E) = false := by
    apply occursIn_pair_append T (dotChar :: E) dash hT2
    · show (List.isPrefixOf [dash, dash] (dotChar :: E) ||
        occursIn [dash, dash] E) = false
      rw [hE1, show List.isPrefixOf [dash, dash] (dotChar :: E) = false from by
        show (dash == dotChar && List.isPrefixOf [dash] E) = false
        rw [show (dash == dotChar) = false from by decide]
        simp]
      rfl
    · intro _ hh
      rw [List.head?_cons] at hh
      exact absurd (Option.some.inj hh) (by decide)
  have e7 : pyReplace (D ++ (dash :: dash :: (T ++ dotChar :: E)))
      [dash, dash] [dash] = D ++ dash :: (T ++ dotChar :: E) := by
    rw [pyReplace_pair D (T ++ dotChar :: E) dash hD1 hD2,
      pyReplace_no_occ _ [dash, dash] [dash] hz]
  have hmain : dbCommands_filename D [] tsR E wcR T =
      D ++ dash :: (T ++ dotChar :: E) := by
    unfold dbCommands_filename
    rw [hslash, e1, e2, e3, e4, e5, e6, e7]
  refine ⟨hmain, ?_⟩
  rw [hmain]
  have hstep2 : occursIn [dash, dash] (dash :: (T ++ dotChar :: E)) = false := by
    show (List.isPrefixOf [dash, dash] (dash :: (T ++ dotChar :: E)) ||
      occursIn [dash, dash] (T ++ dotChar :: E)) = false
    have h1 : List.isPrefixOf [dash, dash] (dash :: (T ++ dotChar :: E)) = false := by
      show (dash == dash && List.isPrefixOf [dash] (T ++ dotChar :: E)) = false
      rw [isPrefixOf_single_eq_false dash _ hWhead]
      simp
    rw [h1, hz]
    rfl
  exact occursIn_pair_append D (dash :: (T ++ dotChar :: E)) dash hD1 hstep2
    (fun hl => absurd hl hD2)

/-- C9 witness: the particular instance of the claim: databasename shop,
empty servername, fixed timestamp, extension psql yields
shop-2016-01-02-030405.psql with no doubled hyphen. -/
theorem C9_filename_collapse_witness :
    dbCommands_filename "shop".data [] "ts".data "psql".data "None".data
        "2016-01-02-030405".data =
      "shop".data ++ dash :: ("2016-01-02-030405".data ++ dotChar :: "psql".data) ∧
    occursIn [dash, dash]
      (dbCommands_filename "shop".data [] "ts".data "psql".data "None".data
        "2016-01-02-030405".data) = false :=
  C9_filename_collapse "shop".data "2016-01-02-030405".data "psql".data
    "ts".data "None".data (by decide) (by decide) (by decide) (by decide)
    (by decide) (by decide) (by decide) (by decide)
